import Mathlib

/-!
Verification of the Software Heritage Vault against its specification.

This file shallowly embeds the parts of the `swh-vault` code base that the
checked properties are about:

* `swh/vault/cookers/base.py` — the cooker framework (size-limited sink and
  the `cook()` run loop);
* `swh/vault/to_disk.py` — directory reconstruction (content filter and
  revision-entry materialization);
* `swh/vault/cookers/git_bare.py` — the git-bare cooker's object loaders;
* `swh/vault/backend.py` — the lifecycle store (cook_request, notifications,
  cache expiration).

Machine strings are modelled as Lean `String`, byte strings as `List Nat`,
database tables as lists of records, and side effects (SMTP, scheduler,
cache blobs, filesystem) as explicit event traces.  Fallible code returns
`Except`/`Option`.  External collaborators (zlib, git object serializers,
the graph service) are parameters of the embedding.
-/

set_option autoImplicit false

/-! ### Byte/hex helpers (swh.model.hashutil.hash_to_hex) -/

/-- One hexadecimal digit, lower case, as produced by `binascii.hexlify`. -/
def hexDigit (n : Nat) : Char :=
  if n < 10 then Char.ofNat (48 + n) else Char.ofNat (87 + n)

/-- Hex encoding of one byte (two lowercase hex characters). -/
def byteToHex (b : Nat) : List Char :=
  [hexDigit (b / 16 % 16), hexDigit (b % 16)]

/-- `hashutil.hash_to_hex`: hex encoding of a byte string (external helper
from `swh.model`, byte-for-byte the standard hex encoding). -/
def hashToHex (id : List Nat) : String :=
  ⟨(id.map byteToHex).flatten⟩

/-- Python slice `s[:n]` on a text string. -/
def strTake (n : Nat) (s : String) : String := ⟨s.data.take n⟩

/-- Python slice `s[n:]` on a text string. -/
def strDrop (n : Nat) (s : String) : String := ⟨s.data.drop n⟩

/-- ASCII bytes of a string, as produced by `str.encode("ascii")`. -/
def asciiBytes (s : String) : List Nat := s.data.map Char.toNat

/-- `sub` occurs contiguously inside `l`. -/
def listSub {α : Type} (sub l : List α) : Prop :=
  ∃ pre post, l = pre ++ sub ++ post

/-- Substring occurrence on strings (Python `sub in s`). -/
def strContainsSub (s sub : String) : Prop := listSub sub.data s.data

/-! ### Cooker framework: `swh/vault/cookers/base.py`

`cook()` drives one cooking run.  Its interactions with the vault backend
(`set_status`, `set_progress`, `put_bundle`, `send_notif`) are recorded as a
trace of `BackendCall`s; an exception escaping `cook()` is the `Option
PyExc` component of the result. -/

/-- A call made by the cooker to the vault backend (RPC client). -/
inductive BackendCall where
  | set_status (status : String)
  | set_progress (msg : Option String)
  | put_bundle (bundle : List Nat)
  | send_notif
deriving DecidableEq, Repr

/-- Python exceptions relevant to the cooker framework.  `policyExc` stands
for `PolicyError` (and its subclass `BundleTooLargeError`), `otherExc` for
any other exception, `typeError` for `TypeError`. -/
inductive PyExc where
  | typeError
  | policyExc (msg : String)
  | otherExc (msg : String)
deriving DecidableEq, Repr

/-- `DEFAULT_CONFIG['max_bundle_size']` from `base.py` (512 MiB). -/
def default_max_bundle_size : Nat := 2 ^ 29

/-- The in-memory sink `BytesIOBundleSizeLimit`: a byte buffer plus the
configured size limit. -/
structure BytesIOBundleSizeLimit where
  size_limit : Option Nat
  buffer : List Nat
deriving DecidableEq, Repr

/-- The `BundleTooLargeError` message,
`"The requested bundle exceeds the maximum allowed size of {} bytes."`
formatted with the size limit. -/
def bundleTooLargeMsg (limit : Nat) : String :=
  "The requested bundle exceeds the maximum allowed size of " ++
    toString limit ++ " bytes."

/-- `BytesIOBundleSizeLimit.__init__(self, *args, size_limit=None, **kwargs)`.
Its body runs `super().__init__(self, *args, **kwargs)`: the instance itself
is passed as the `initial_bytes` argument of `io.BytesIO.__init__`, which
requires a bytes-like object and therefore raises
`TypeError: a bytes-like object is required, not 'BytesIOBundleSizeLimit'`.
Construction of the sink consequently always fails. -/
def mkBytesIOBundleSizeLimit (_size_limit : Option Nat) :
    Except PyExc BytesIOBundleSizeLimit :=
  .error .typeError

/-- `BytesIOBundleSizeLimit.write(self, chunk)`: raises
`BundleTooLargeError` when the buffer plus the chunk would exceed the size
limit, otherwise appends the chunk. -/
def sizeLimitWrite (sink : BytesIOBundleSizeLimit) (chunk : List Nat) :
    Except PyExc BytesIOBundleSizeLimit :=
  match sink.size_limit with
  | some limit =>
      if sink.buffer.length + chunk.length > limit then
        .error (.policyExc (bundleTooLargeMsg limit))
      else
        .ok { sink with buffer := sink.buffer ++ chunk }
  | none => .ok { sink with buffer := sink.buffer ++ chunk }

/-- What a concrete cooker's `prepare_bundle()` does when it runs: it calls
`self.write(chunk)` for each chunk in order, then possibly raises. -/
structure PrepareBundle where
  chunks : List (List Nat)
  raises : Option PyExc
deriving Repr

/-- Run `prepare_bundle()` against the sink, then `self.fileobj.getvalue()`:
either the bundle bytes, or the first exception raised (a
`BundleTooLargeError` from `write`, or the cooker's own exception). -/
def runPrepare (sink : BytesIOBundleSizeLimit) (prep : PrepareBundle) :
    Except PyExc (List Nat) :=
  match prep.chunks.foldlM sizeLimitWrite sink with
  | .error e => .error e
  | .ok sink' =>
      match prep.raises with
      | some e => .error e
      | none => .ok sink'.buffer

/-- The fixed progress message stored on a non-policy failure. -/
def internalServerErrorMsg : String :=
  "Internal Server Error. This incident will be reported."

/-- `BaseVaultCooker.cook()`.  Returns the trace of backend calls it makes
and the exception escaping it, if any.  Faithful to the source order:
`set_status(pending)`, `set_progress("Processing...")`, construction of the
size-limited sink (outside the `try` block: an exception there escapes
`cook()` and skips the `finally` clause), then `prepare_bundle()` inside
`try`/`except PolicyError`/`except Exception`/`else`/`finally`. -/
def cook (max_bundle_size : Nat) (prep : PrepareBundle) :
    List BackendCall × Option PyExc :=
  let t0 : List BackendCall :=
    [.set_status "pending", .set_progress (some "Processing...")]
  match mkBytesIOBundleSizeLimit (some max_bundle_size) with
  | .error e => (t0, some e)
  | .ok sink =>
      match runPrepare sink prep with
      | .error (.policyExc m) =>
          (t0 ++ [.set_status "failed", .set_progress (some m), .send_notif],
           none)
      | .error _ =>
          (t0 ++ [.set_status "failed",
                  .set_progress (some internalServerErrorMsg), .send_notif],
           none)
      | .ok bundle =>
          (t0 ++ [.put_bundle bundle, .set_status "done",
                  .set_progress none, .send_notif],
           none)

/-- The three chunks written by the mock cooker of
`test_cookers_base.py::test_simple_cook`. -/
def testBundleChunks : List (List Nat) :=
  [asciiBytes "test content 1\n",
   asciiBytes "test content 2\n",
   asciiBytes "test content 3\n"]

/-! ### Directory reconstruction: `swh/vault/to_disk.py` -/

/-- `SKIPPED_MESSAGE` from `to_disk.py` (ASCII bytes, shown as text). -/
def SKIPPED_MESSAGE : String :=
  "This content has not been retrieved in the Software Heritage archive due to its size."

/-- `HIDDEN_MESSAGE` from `to_disk.py`. -/
def HIDDEN_MESSAGE : String := "This content is hidden."

/-- `MISSING_MESSAGE` from `to_disk.py`. -/
def MISSING_MESSAGE : String :=
  "This content is missing from the Software Heritage archive (or from the mirror used while retrieving it)."

/-- A `directory_ls` file entry, with the fields `get_filtered_file_content`
and `DirectoryBuilder` read.  `status` is `None` or one of
`visible`/`absent`/`hidden`; `path` is the entry path relative to the root. -/
structure FileData where
  status : Option String
  sha1 : List Nat
  sha1_git : List Nat
  target : List Nat
  path : String
  perms : Nat
deriving DecidableEq, Repr

/-- The hash dict `{"sha1": ..., "sha1_git": ...}` built for the fetch. -/
structure HashDict where
  sha1 : List Nat
  sha1_git : List Nat
deriving DecidableEq, Repr

/-- `get_filtered_file_content(storage, file_data, objstorage)`.  The two
possible fetchers (`objstorage.get` and `storage.content_get_data`) are
parameters; both may return `None`.  The function returns the `content`
value it adds to the entry (contents are byte strings; ASCII text is used
here).  The `assert False` on an unknown status is the `.error` case. -/
def get_filtered_file_content
    (content_get_data : HashDict → Option String)
    (objstorage : Option (HashDict → Option String))
    (fd : FileData) : Except String String :=
  if fd.status = some "visible" then
    let hashes : HashDict := ⟨fd.sha1, fd.sha1_git⟩
    let data : Option String :=
      match objstorage with
      | some og => og hashes
      | none => content_get_data hashes
    match data with
    | none => .ok SKIPPED_MESSAGE
    | some d => .ok d
  else if fd.status = some "absent" then .ok SKIPPED_MESSAGE
  else if fd.status = some "hidden" then .ok HIDDEN_MESSAGE
  else if fd.status = none then .ok MISSING_MESSAGE
  else .error "unexpected status"

/-- A filesystem action performed by `DirectoryBuilder`. -/
inductive FsAction where
  | makedirs (path : String)
  | symlink (target : String) (path : String)
  | writeFile (path : String) (content : String)
  | chmod (path : String) (mode : Nat)
deriving DecidableEq, Repr

/-- `os.path.join(root, path)` for the byte paths used here. -/
def pathJoin (root p : String) : String := root ++ "/" ++ p

/-- `DirectoryBuilder._create_revisions(revs_data)`: for each revision entry
the code runs `os.makedirs(os.path.join(self.root, file_data["path"]))` —
it creates an empty directory at the entry path (its docstring instead
promises broken symlinks to the target identifier). -/
def _create_revisions (root : String) (revs_data : List FileData) :
    List FsAction :=
  revs_data.map (fun fd => .makedirs (pathJoin root fd.path))

/-- `DentryPerms.symlink` from `swh.model.from_disk` (mode `0o120000`). -/
def dentryPermsSymlink : Nat := 0o120000

/-- `mode_to_perms` from `swh.model.from_disk`, restricted to what
`_create_file` distinguishes: whether the mode denotes a symlink
(`mode & 0o170000 == 0o120000`). -/
def modeIsSymlink (mode : Nat) : Bool := mode / 4096 % 16 = 10

/-- `DirectoryBuilder._create_file(path, content, mode)`: a symlink for
symlink modes, otherwise write the file and `chmod` it. -/
def _create_file (path : String) (content : String) (mode : Nat) :
    List FsAction :=
  if modeIsSymlink mode then
    [.symlink content path]
  else
    [.writeFile path content, .chmod path (mode % 512)]

/-! ### Git-bare cooker: `swh/vault/cookers/git_bare.py`

The subgraph-loading phase (`load_subgraph` and the functions below it) is
embedded as a fuelled recursion over the archive graph.  The temporary
repository is the `CookerState`: the set of object ids whose loose-object
file exists, plus the log of every `write_object` call (the id, the on-disk
path, the stored bytes).  `objects/xx/yy...` paths are in bijection with
object ids (hex encoding), so file existence is tracked by id, with
`_obj_path` giving the on-disk name.  zlib, the canonical git serializers
from `swh.model.identifiers`, and the optional graph service are external
collaborators, passed in through `GitBareEnv`.  The `functools.lru_cache`
layers on `load_directory_subgraph`/`load_content` only short-circuit the
file-existence check they precede and do not change what is written, so
they are not modelled separately. -/

/-- A revision as returned by storage (the fields the cooker reads). -/
structure RevisionData where
  id : List Nat
  directory : List Nat
  parents : List (List Nat)
deriving DecidableEq, Repr

/-- A `directory_ls(recursive=False)` entry: its type (`file`, `dir` or
`rev`) and its target id. -/
structure DirEntry where
  etype : String
  target : List Nat
deriving DecidableEq, Repr

/-- The narrow storage interface the git-bare cooker consumes, as finite
association lists: `revision_get`, `directory_ls`, `content_find`
(sha1_git to sha1) and `content_get_data` (sha1 to bytes). -/
structure GitStorage where
  revisions : List (List Nat × RevisionData)
  directories : List (List Nat × List DirEntry)
  content_sha1 : List (List Nat × List Nat)
  content_data : List (List Nat × List Nat)

/-- Association-list lookup (a storage query by id). -/
def alookup {β : Type} (l : List (List Nat × β)) (k : List Nat) : Option β :=
  (l.find? (fun p => p.1 == k)).map Prod.snd

/-- `GitBareCooker._obj_path`: `objects/<hex[0:2]>/<hex[2:]>` under the
temporary bare repository (the `gitdir` prefix is elided). -/
def _obj_path (obj_id : List Nat) : String :=
  "objects/" ++ strTake 2 (hashToHex obj_id) ++ "/" ++
    strDrop 2 (hashToHex obj_id)

/-- The on-disk state of the temporary repository during one cooking run:
ids whose object file exists, and the log of writes performed
(id, path, bytes stored). -/
structure CookerState where
  written : List (List Nat)
  writes : List (List Nat × String × List Nat)
deriving DecidableEq, Repr

/-- Fresh temporary repository (after `init_git`). -/
def initCookerState : CookerState := ⟨[], []⟩

/-- External collaborators of the git-bare cooker: `zlib.compress(·, 1)`,
the canonical git serializers of `swh.model.identifiers`, the optional
graph service (`visit_nodes(·, edges="rev:rev")`; `.error` is
`GraphArgumentException`), and the storage.

Modelled from the spec: the cooker's `graph` attribute is set by
configuration code that is not under `src/` (the `BaseVaultCooker`
variant shipped here predates it); per §4.6 the graph is optional and the
cooker falls back to storage walks without it. -/
structure GitBareEnv where
  zlib1 : List Nat → List Nat
  revision_git_object : RevisionData → List Nat
  directory_git_object : List Nat → List DirEntry → List Nat
  graph : Option (List Nat → Except Unit (List (List Nat)))
  storage : GitStorage

/-- `GitBareCooker.object_exists`: does the loose-object file exist? -/
def object_exists (st : CookerState) (obj_id : List Nat) : Bool :=
  st.written.contains obj_id

/-- `GitBareCooker.write_object(obj_id, obj)`: zlib-compress at level 1 and
write to `_obj_path(obj_id)`, unconditionally (the method performs no
existence check). -/
def write_object (env : GitBareEnv) (obj_id obj : List Nat)
    (st : CookerState) : CookerState :=
  { written := obj_id :: st.written,
    writes := st.writes ++ [(obj_id, _obj_path obj_id, env.zlib1 obj)] }

/-- The blob object built by `load_content`:
`f"blob {len(content)}\0".encode("ascii") + content`. -/
def blobGitObject (data : List Nat) : List Nat :=
  asciiBytes ("blob " ++ toString data.length) ++ [0] ++ data

/-- Exceptions during subgraph loading: `KeyError` (unknown entry type in
`entry_loaders`), `IndexError` (`content_find(...)[0]` on a missing
content), `TypeError` (`len(None)` when `content_get_data` returns null),
and fuel exhaustion of the embedding. -/
inductive CookErr where
  | keyError
  | indexError
  | typeError
  | fuel
deriving DecidableEq, Repr

/-- The pending work items of the loading phase.  `dir` is
`load_directory_subgraph`, `file` is `load_content`, `revSubgraph` is
`load_revision_subgraph`, `revNode rev` is `write_revision_node rev`
(followed in the source by loading its directory, which the task lists
sequence), `revFetch` is the per-id body of
`load_revisions_and_directory_subgraphs`, and `badEntry` is a directory
entry whose type is not in `entry_loaders`. -/
inductive LoadTask where
  | dir (id : List Nat)
  | file (id : List Nat)
  | revSubgraph (id : List Nat)
  | revNode (rev : RevisionData)
  | revFetch (id : List Nat)
  | badEntry
deriving Repr

/-- The `entry_loaders` dispatch of `load_directory_subgraph`. -/
def entryTask (e : DirEntry) : LoadTask :=
  if e.etype = "file" then .file e.target
  else if e.etype = "dir" then .dir e.target
  else if e.etype = "rev" then .revSubgraph e.target
  else .badEntry

/-- Modelled from the spec: `DFSRevisionsWalker` (`swh.storage.algos`,
external): depth-first walk of the revision DAG from the root, yielding
each reachable stored revision exactly once (a visited set prevents
re-yields). -/
def dfsWalk (storage : GitStorage) :
    Nat → List (List Nat) → List (List Nat) → List RevisionData
  | 0, _, _ => []
  | _ + 1, [], _ => []
  | fuel + 1, id :: stack, visited =>
    if id ∈ visited then dfsWalk storage fuel stack visited
    else
      match alookup storage.revisions id with
      | none => dfsWalk storage fuel stack (id :: visited)
      | some rev =>
          rev :: dfsWalk storage fuel (rev.parents ++ stack) (id :: visited)

mutual

/-- One loading step of the git-bare cooker, faithful to
`load_directory_subgraph` / `load_content` / `load_revision_subgraph` /
`load_revisions_and_directory_subgraphs` / `write_revision_node`:

* `dir id`: return if the object file exists; otherwise `directory_ls`,
  write the directory object, then load each entry through
  `entry_loaders`;
* `file id`: return if the object file exists; otherwise `content_find`
  (`IndexError` when absent), `content_get_data` (`len(None)` is a
  `TypeError`), and write the blob;
* `revSubgraph id`: with a graph, `visit_nodes(rev:rev)` and a
  `revFetch` per returned id (the `grouper` batching of 10000 ids only
  affects RPC granularity); on `GraphArgumentException` or without a
  graph, fall back to the DFS revision walker, writing each revision and
  loading its directory;
* `revNode rev` / `revFetch id`: write the revision object
  unconditionally, then (for `revFetch`) load its directory. -/
def runTask (env : GitBareEnv) :
    Nat → LoadTask → CookerState → CookerState × Option CookErr
  | 0, _, st => (st, some .fuel)
  | fuel + 1, t, st =>
    match t with
    | .revNode rev =>
        (write_object env rev.id (env.revision_git_object rev) st, none)
    | .file id =>
        if object_exists st id then (st, none)
        else
          match alookup env.storage.content_sha1 id with
          | none => (st, some .indexError)
          | some sha1 =>
              match alookup env.storage.content_data sha1 with
              | none => (st, some .typeError)
              | some data =>
                  (write_object env id (blobGitObject data) st, none)
    | .dir id =>
        if object_exists st id then (st, none)
        else
          let entries := (alookup env.storage.directories id).getD []
          let st1 := write_object env id (env.directory_git_object id entries) st
          runTaskList env fuel (entries.map entryTask) st1
    | .revFetch id =>
        match alookup env.storage.revisions id with
        | none => (st, some .typeError)
        | some rev =>
            let st1 := write_object env rev.id (env.revision_git_object rev) st
            runTask env fuel (.dir rev.directory) st1
    | .revSubgraph id =>
        match env.graph with
        | some g =>
            match g id with
            | .ok ids => runTaskList env fuel (ids.map LoadTask.revFetch) st
            | .error _ =>
                runTaskList env fuel
                  ((dfsWalk env.storage fuel [id] []).flatMap
                    (fun r => [LoadTask.revNode r, LoadTask.dir r.directory])) st
        | none =>
            runTaskList env fuel
              ((dfsWalk env.storage fuel [id] []).flatMap
                (fun r => [LoadTask.revNode r, LoadTask.dir r.directory])) st
    | .badEntry => (st, some .keyError)

/-- Run a sequence of loading steps, stopping at the first exception. -/
def runTaskList (env : GitBareEnv) :
    Nat → List LoadTask → CookerState → CookerState × Option CookErr
  | 0, _, st => (st, some .fuel)
  | _ + 1, [], st => (st, none)
  | fuel + 1, t :: rest, st =>
      match runTask env fuel t st with
      | (st', none) => runTaskList env fuel rest st'
      | (st', some e) => (st', some e)

end

/-- `GitBareCooker.load_subgraph(obj_type, obj_id)`. -/
def load_subgraph (env : GitBareEnv) (fuel : Nat) (obj_type : String)
    (obj_id : List Nat) (st : CookerState) : CookerState × Option CookErr :=
  if obj_type = "revision" then runTask env fuel (.revSubgraph obj_id) st
  else if obj_type = "directory" then runTask env fuel (.dir obj_id) st
  else (st, some .keyError)

/-- Number of writes performed to the object file of `id` during the run. -/
def writeCount (id : List Nat) (st : CookerState) : Nat :=
  (st.writes.filter (fun w => w.1 == id)).length

/-- Ids holding revisions in the storage (the ids written without an
existence check). -/
def revIds (storage : GitStorage) : List (List Nat) :=
  storage.revisions.map Prod.fst

/-- Invariant: every non-revision object file has been written at most
once, and it exists on disk exactly when it has been written. -/
def dirContentOnce (rids : List (List Nat)) (st : CookerState) : Prop :=
  ∀ id : List Nat, id ∉ rids →
    writeCount id st ≤ 1 ∧ (id ∈ st.written ↔ writeCount id st = 1)

/-- Tasks whose unguarded writes only target revision ids: `revNode`
carries a stored revision. -/
def goodTask (rids : List (List Nat)) : LoadTask → Prop
  | .revNode rev => rev.id ∈ rids
  | _ => True

/-! ### Lifecycle store: `swh/vault/backend.py`

The PostgreSQL tables `vault_bundle` and `vault_notif_email` are lists of
records; `NOW()` is an abstract clock; the scheduler handle returned by
`_send_task` is a fresh counter value; SMTP sends, notification-row
deletions, scheduler enqueues, SQL row deletions and cache-blob deletions
are recorded as `Event`s in execution order. -/

/-- One `vault_bundle` row.  `rid` is the serial primary key `id`. -/
structure BundleRow where
  rid : Nat
  btype : String
  object_id : List Nat
  task_id : Option Nat
  task_status : String
  sticky : Bool
  ts_created : Nat
  ts_done : Option Nat
  ts_last_access : Option Nat
  progress_msg : Option String
deriving DecidableEq, Repr

/-- One `vault_notif_email` row. -/
structure NotifRow where
  nid : Nat
  bundle_id : Nat
  email : String
deriving DecidableEq, Repr

/-- The backend's durable state plus the generators for serial ids, task
handles and the clock. -/
structure VaultDB where
  bundles : List BundleRow
  notifs : List NotifRow
  next_rid : Nat
  next_nid : Nat
  next_task_id : Nat
  clock : Nat
deriving DecidableEq, Repr

/-- Externally observable actions of the backend, in execution order. -/
inductive Event where
  | enqueueTask (obj_type hex_id : String) (task_id : Nat)
  | email (subject body toAddr fromAddr : String)
  | delNotif (nid : Nat)
  | dbDeleteRow (obj_type : String) (object_id : List Nat)
  | cacheDelete (obj_type : String) (object_id : List Nat)
deriving DecidableEq, Repr

/-- Exceptions raised by the backend: `NotFoundExc`, the unique-key /
foreign-key `IntegrityError`s of the schema, `RuntimeError`, and failed
`assert`s. -/
inductive VaultErr where
  | notFound (msg : String)
  | integrityError
  | runtimeError (msg : String)
  | assertionError
deriving DecidableEq, Repr

/-- The SQL predicate `type = %s AND object_id = %s`. -/
def keyMatch (t : String) (id : List Nat) (r : BundleRow) : Bool :=
  r.btype == t && r.object_id == id

/-- `VaultBackend.task_info(obj_type, obj_id)`: the bundle row or null. -/
def task_info (t : String) (id : List Nat) (s : VaultDB) : Option BundleRow :=
  s.bundles.find? (keyMatch t id)

/-- The row inserted (and then updated with its task handle) by
`create_task` on state `s`. -/
def freshRow (s : VaultDB) (t : String) (id : List Nat) (sticky : Bool) :
    BundleRow :=
  { rid := s.next_rid, btype := t, object_id := id,
    task_id := some s.next_task_id, task_status := "new", sticky := sticky,
    ts_created := s.clock, ts_done := none, ts_last_access := some s.clock,
    progress_msg := none }

/-- `VaultBackend.create_task(obj_type, obj_id, sticky)`.  `check_exists`
is the cooker's archive lookup (external storage); when false, the
`NotFoundExc` is raised before any insert.  The `INSERT` names only
`(type, object_id, sticky)`.

Modelled from the spec: the SQL schema (`sql/`, not under `src/`) gives
the defaults of the remaining columns — `task_status` `new`, `ts_created`
and `ts_last_access` `NOW()` — and the unique `(type, object_id)`
constraint that makes a duplicate insert fail.  After the insert the task
is sent to the scheduler and the returned handle stored on the row. -/
def create_task (check_exists : Bool) (t : String) (id : List Nat)
    (sticky : Bool) (s : VaultDB) : Except VaultErr (VaultDB × List Event) :=
  if ¬check_exists then
    .error (.notFound ("Object " ++ hashToHex id ++ " was not found."))
  else if (task_info t id s).isSome then
    .error .integrityError
  else
    let row0 : BundleRow := { freshRow s t id sticky with task_id := none }
    let task := s.next_task_id
    let bundles1 := s.bundles ++ [row0]
    let bundles2 := bundles1.map
      (fun r => if keyMatch t id r then { r with task_id := some task } else r)
    .ok ({ s with bundles := bundles2, next_rid := s.next_rid + 1,
                  next_task_id := s.next_task_id + 1 },
         [.enqueueTask t (hashToHex id) task])

/-- `VaultBackend.add_notif_email(obj_type, obj_id, email)`: insert a
notification row whose `bundle_id` is resolved by sub-select (a missing
bundle would insert a null `bundle_id` and violate the foreign key). -/
def add_notif_email (t : String) (id : List Nat) (email : String)
    (s : VaultDB) : Except VaultErr VaultDB :=
  match task_info t id s with
  | none => .error .integrityError
  | some b =>
      .ok { s with notifs := s.notifs ++ [⟨s.next_nid, b.rid, email⟩],
                   next_nid := s.next_nid + 1 }

/-- `NOTIF_EMAIL_FROM`. -/
def NOTIF_EMAIL_FROM : String :=
  "\"Software Heritage Vault\" <info@softwareheritage.org>"

/-- `NOTIF_EMAIL_SUBJECT_SUCCESS.format(...)`. -/
def notifSubjectSuccess (obj_type short_id : String) : String :=
  "Bundle ready: " ++ obj_type ++ " " ++ short_id

/-- `NOTIF_EMAIL_SUBJECT_FAILURE.format(...)`. -/
def notifSubjectFailure (obj_type short_id : String) : String :=
  "Bundle failed: " ++ obj_type ++ " " ++ short_id

/-- The bundle download URL hardcoded in `send_notification`. -/
def vaultFetchUrl (obj_type hex_id : String) : String :=
  "https://archive.softwareheritage.org/api/1/vault/" ++ obj_type ++ "/" ++
    hex_id ++ "/raw"

/-- `NOTIF_EMAIL_BODY_SUCCESS.strip().format(...)`. -/
def notifBodySuccess (obj_type hex_id url : String) : String :=
  "You have requested the following bundle from the Software Heritage\nVault:\n\nObject Type: "
    ++ obj_type ++ "\nObject ID: " ++ hex_id ++
    "\n\nThis bundle is now available for download at the following address:\n\n"
    ++ url ++
    "\n\nPlease keep in mind that this link might expire at some point, in which\ncase you will need to request the bundle again.\n\n-- \nThe Software Heritage Developers"

/-- `NOTIF_EMAIL_BODY_FAILURE.strip().format(...)`. -/
def notifBodyFailure (obj_type hex_id progress : String) : String :=
  "You have requested the following bundle from the Software Heritage\nVault:\n\nObject Type: "
    ++ obj_type ++ "\nObject ID: " ++ hex_id ++
    "\n\nThis bundle could not be cooked for the following reason:\n\n"
    ++ progress ++
    "\n\nWe apologize for the inconvenience.\n\n-- \nThe Software Heritage Developers"

/-- Python `str.format` on a possibly-null `progress_msg` (`None` prints
as the text `None`). -/
def pyStr : Option String → String
  | some p => p
  | none => "None"

/-- `_smtp_send(msg)` followed by the conditional notification-row delete
at the end of `send_notification`: the mail goes out first, the row (when
`n_id` is not null) is deleted after the send returns. -/
def smtpSendAndDelete (n_id : Option Nat) (subject text email : String)
    (s : VaultDB) : VaultDB × List Event :=
  match n_id with
  | some i =>
      ({ s with notifs := s.notifs.filter (fun n => n.nid != i) },
       [.email subject text email NOTIF_EMAIL_FROM, .delNotif i])
  | none => (s, [.email subject text email NOTIF_EMAIL_FROM])

/-- `VaultBackend.send_notification(n_id, email, obj_type, obj_id, status,
progress_msg)`.  For a status other than `done`/`failed` it raises
`RuntimeError("send_notification called on a '{}' bundle")` before any
mail is sent or row deleted (the quotes of the source message are elided
here). -/
def send_notification (n_id : Option Nat) (email obj_type : String)
    (obj_id : List Nat) (status : String) (progress_msg : Option String)
    (s : VaultDB) : Except VaultErr (VaultDB × List Event) :=
  let hex_id := hashToHex obj_id
  let short_id := strTake 7 hex_id
  if status = "done" then
    .ok (smtpSendAndDelete n_id (notifSubjectSuccess obj_type short_id)
      (notifBodySuccess obj_type hex_id (vaultFetchUrl obj_type hex_id))
      email s)
  else if status = "failed" then
    .ok (smtpSendAndDelete n_id (notifSubjectFailure obj_type short_id)
      (notifBodyFailure obj_type hex_id (pyStr progress_msg)) email s)
  else
    .error (.runtimeError
      ("send_notification called on a " ++ status ++ " bundle"))

/-- The SQL join of `send_all_notifications`: every notification row of
the bundle keyed `(t, id)`, with the bundle's status and progress.  With
the serial primary key each notification matches at most one bundle, so
the inner join is a `find?` per notification row. -/
def notifJoin (t : String) (id : List Nat) (s : VaultDB) :
    List (Nat × String × String × Option String) :=
  s.notifs.filterMap (fun n =>
    (s.bundles.find? (fun b => b.rid == n.bundle_id && keyMatch t id b)).map
      (fun b => (n.nid, n.email, b.task_status, b.progress_msg)))

/-- The `for d in cursor:` loop of `send_all_notifications`: one
`send_notification` per selected row, stopping at the first raised
exception (events already emitted stay emitted, rows already deleted stay
deleted). -/
def sendNotifLoop (t : String) (id : List Nat) :
    List (Nat × String × String × Option String) → VaultDB → List Event →
    VaultDB × List Event × Option VaultErr
  | [], s, ev => (s, ev, none)
  | (nid, em, st, pm) :: rest, s, ev =>
    match send_notification (some nid) em t id st pm s with
    | .ok (s', ev') => sendNotifLoop t id rest s' (ev ++ ev')
    | .error e => (s, ev, some e)

/-- `VaultBackend.send_all_notifications(obj_type, obj_id)`. -/
def send_all_notifications (t : String) (id : List Nat) (s : VaultDB) :
    VaultDB × List Event × Option VaultErr :=
  sendNotifLoop t id (notifJoin t id s) s []

/-- `VaultBackend.cook_request(obj_type, obj_id, sticky, email)`: delete a
`failed` row first, create the task when no row remains, then handle the
email (immediate send when the pre-existing row was already `done`,
otherwise queue it), and finally re-read and return `task_info`. -/
def cook_request (check_exists : Bool) (t : String) (id : List Nat)
    (sticky : Bool) (email : Option String) (s : VaultDB) :
    Except VaultErr (VaultDB × List Event × Option BundleRow) := do
  let info0 := task_info t id s
  let (info, s1) :=
    if (match info0 with | some i => i.task_status == "failed" | none => false) then
      (none, { s with bundles := s.bundles.filter (fun r => !(keyMatch t id r)) })
    else (info0, s)
  let (s2, ev1) ←
    match info with
    | none => create_task check_exists t id sticky s1
    | some _ => Except.ok (s1, [])
  let (s3, ev2) ←
    match email with
    | none => Except.ok (s2, ([] : List Event))
    | some em =>
        match info with
        | some i =>
            if i.task_status = "done" then
              send_notification none em t id i.task_status none s2
            else do
              let s' ← add_notif_email t id em s2
              Except.ok (s', ([] : List Event))
        | none => do
            let s' ← add_notif_email t id em s2
            Except.ok (s', ([] : List Event))
  Except.ok (s3, ev1 ++ ev2, task_info t id s3)

/-- The `ts_{by}` column selected by the expiration methods. -/
def tsKey (by_ : String) (r : BundleRow) : Option Nat :=
  if by_ = "created" then some r.ts_created
  else if by_ = "done" then r.ts_done
  else r.ts_last_access

/-- SQL `ORDER BY ts_{by}` comparison (ascending, nulls last). -/
def tsLe (by_ : String) (a b : BundleRow) : Bool :=
  match tsKey by_ a, tsKey by_ b with
  | some x, some y => x ≤ y
  | some _, none => true
  | none, some _ => false
  | none, none => true

/-- Insertion into a sorted list (stable sort of the selected rows). -/
def insSorted (le : BundleRow → BundleRow → Bool) (x : BundleRow) :
    List BundleRow → List BundleRow
  | [] => [x]
  | y :: ys => if le x y then x :: y :: ys else y :: insSorted le x ys

/-- The `ORDER BY` of the embedded select. -/
def sortRows (le : BundleRow → BundleRow → Bool) (l : List BundleRow) :
    List BundleRow :=
  l.foldr (insSorted le) []

/-- `VaultBackend._cache_expire(cond, *args)`: one SQL
`DELETE FROM vault_bundle WHERE ctid IN (SELECT ctid FROM vault_bundle
WHERE sticky = false {cond}) RETURNING type, object_id`, then
`cache.delete` on each returned row — all row deletions happen in the
single statement, before any blob deletion.  `cond` is the embedded
refinement of the select supplied by the caller. -/
def _cache_expire (cond : List BundleRow → List BundleRow) (s : VaultDB) :
    VaultDB × List Event :=
  let selected := cond (s.bundles.filter (fun r => r.sticky == false))
  let deletedIds := selected.map (fun r => r.rid)
  ({ s with
      bundles := s.bundles.filter (fun r => !(deletedIds.contains r.rid)) },
   selected.map (fun r => Event.dbDeleteRow r.btype r.object_id) ++
     selected.map (fun r => Event.cacheDelete r.btype r.object_id))

/-- `VaultBackend.cache_expire_oldest(n, by)`. -/
def cache_expire_oldest (n : Nat) (by_ : String) (s : VaultDB) :
    Except VaultErr (VaultDB × List Event) :=
  if by_ = "created" ∨ by_ = "done" ∨ by_ = "last_access" then
    .ok (_cache_expire (fun rows => (sortRows (tsLe by_) rows).take n) s)
  else .error .assertionError

/-- `VaultBackend.cache_expire_until(date, by)`. -/
def cache_expire_until (date : Nat) (by_ : String) (s : VaultDB) :
    Except VaultErr (VaultDB × List Event) :=
  if by_ = "created" ∨ by_ = "done" ∨ by_ = "last_access" then
    .ok (_cache_expire
      (fun rows => rows.filter (fun r =>
        match tsKey by_ r with
        | some ts => ts ≤ date
        | none => false)) s)
  else .error .assertionError

/-- Unique serial ids on the bundle table (primary-key invariant). -/
def uniqueRids (l : List BundleRow) : Prop :=
  ∀ r1 ∈ l, ∀ r2 ∈ l, r1.rid = r2.rid → r1 = r2

/-- Unique `(type, object_id)` pairs (the schema's unique constraint). -/
def uniqueKeys (l : List BundleRow) : Prop :=
  ∀ r1 ∈ l, ∀ r2 ∈ l,
    r1.btype = r2.btype → r1.object_id = r2.object_id → r1 = r2

/-! ### Concrete fixtures used to evaluate the embedded code -/

/-- The first two backend calls of every `cook()` run. -/
def pendingTrace : List BackendCall :=
  [.set_status "pending", .set_progress (some "Processing...")]

/-- A prepare run writing nine bytes (exceeds a limit of 8). -/
def prepPolicyInput : PrepareBundle := ⟨[asciiBytes "123456789"], none⟩

/-- A prepare run raising `RuntimeError("Nope")`
(`test_cookers_base.py::test_code_exception_cook`). -/
def prepRuntimeInput : PrepareBundle := ⟨[], some (.otherExc "Nope")⟩

/-- The successful mock prepare run of `test_simple_cook`. -/
def prepSimpleInput : PrepareBundle := ⟨testBundleChunks, none⟩

/-- The fetcher actually consulted by `get_filtered_file_content`:
`objstorage.get` when an objstorage is given, else
`storage.content_get_data`. -/
def effectiveFetch (content_get_data : HashDict → Option String)
    (objstorage : Option (HashDict → Option String)) :
    HashDict → Option String :=
  match objstorage with
  | some og => og
  | none => content_get_data

/-- A visible file entry whose content the storage no longer has. -/
def visibleFile : FileData := ⟨some "visible", [1], [2], [2], "file1", 420⟩

/-- An `absent` (too large to archive) file entry. -/
def absentFile : FileData := ⟨some "absent", [1], [2], [2], "file2", 420⟩

/-- A `hidden` file entry. -/
def hiddenFile : FileData := ⟨some "hidden", [1], [2], [2], "file3", 420⟩

/-- A file entry with a null status. -/
def nullStatusFile : FileData := ⟨none, [1], [2], [2], "file4", 420⟩

/-- A revision (submodule) entry of a directory being cooked. -/
def revEntry : FileData := ⟨none, [], [], List.replicate 20 17, "submod", 0o160000⟩

/-- Object ids of the git-bare counterexample graph. -/
def cexRoot : List Nat := [0]

/-- Subdirectory 1 of the counterexample graph. -/
def cexD1 : List Nat := [1]

/-- Subdirectory 2 of the counterexample graph. -/
def cexD2 : List Nat := [2]

/-- The (empty) directory of the counterexample revision. -/
def cexD3 : List Nat := [3]

/-- The revision referenced by two submodule entries. -/
def cexRv : List Nat := [4]

/-- A storage holding a root directory with two subdirectories, each
containing a submodule (`rev`) entry pointing at the same revision
`cexRv`, whose own tree `cexD3` is empty. -/
def cexStorage : GitStorage :=
  { revisions := [(cexRv, ⟨cexRv, cexD3, []⟩)],
    directories :=
      [(cexRoot, [⟨"dir", cexD1⟩, ⟨"dir", cexD2⟩]),
       (cexD1, [⟨"rev", cexRv⟩]),
       (cexD2, [⟨"rev", cexRv⟩]),
       (cexD3, [])],
    content_sha1 := [],
    content_data := [] }

/-- A concrete environment for the counterexample run: no graph service,
and placeholder serializers/compressor (the double write is a property of
the control flow, independent of the byte-level codecs). -/
def cexEnv : GitBareEnv :=
  { zlib1 := fun l => l,
    revision_git_object := fun r => r.id,
    directory_git_object := fun id _ => id,
    graph := none,
    storage := cexStorage }

/-- The counterexample cooking run: load the subgraph of `cexRoot`. -/
def cexRun : CookerState × Option CookErr :=
  runTask cexEnv 30 (.dir cexRoot) initCookerState

/-- A failed bundle row used to exercise `cook_request`. -/
def wFailedRow : BundleRow :=
  { rid := 0, btype := "directory", object_id := [17, 34], task_id := some 0,
    task_status := "failed", sticky := false, ts_created := 0,
    ts_done := none, ts_last_access := some 0,
    progress_msg := some internalServerErrorMsg }

/-- A backend state holding only `wFailedRow`. -/
def wFailedDB : VaultDB :=
  { bundles := [wFailedRow], notifs := [], next_rid := 1, next_nid := 0,
    next_task_id := 1, clock := 5 }

/-- A sticky `done` row. -/
def wStickyRow : BundleRow :=
  { rid := 1, btype := "git_bare", object_id := [1], task_id := some 1,
    task_status := "done", sticky := true, ts_created := 1,
    ts_done := some 2, ts_last_access := some 2, progress_msg := none }

/-- A non-sticky `done` row, older than the sticky one. -/
def wOldRow : BundleRow :=
  { rid := 2, btype := "directory", object_id := [2], task_id := some 2,
    task_status := "done", sticky := false, ts_created := 0,
    ts_done := some 1, ts_last_access := some 1, progress_msg := none }

/-- A backend state with one sticky and one non-sticky row. -/
def wExpireDB : VaultDB :=
  { bundles := [wStickyRow, wOldRow], notifs := [], next_rid := 3,
    next_nid := 0, next_task_id := 3, clock := 9 }

/-- A `done` row with two pending notifications. -/
def wDoneRow : BundleRow :=
  { rid := 4, btype := "revision_gitfast", object_id := [74, 75, 151, 113, 84],
    task_id := some 4, task_status := "done", sticky := false,
    ts_created := 3, ts_done := some 6, ts_last_access := some 6,
    progress_msg := none }

/-- Backend state for the notification-flush scenario. -/
def wNotifDB : VaultDB :=
  { bundles := [wDoneRow],
    notifs := [⟨0, 4, "a@example.com"⟩, ⟨1, 4, "b@example.com"⟩],
    next_rid := 5, next_nid := 2, next_task_id := 5, clock := 9 }

/-- A bundle still `new`, with one queued notification. -/
def wNewRow : BundleRow :=
  { rid := 6, btype := "directory", object_id := [6], task_id := some 6,
    task_status := "new", sticky := false, ts_created := 7, ts_done := none,
    ts_last_access := some 7, progress_msg := none }

/-- Backend state for the non-terminal-notification scenario. -/
def wNewDB : VaultDB :=
  { bundles := [wNewRow], notifs := [⟨3, 6, "c@example.com"⟩],
    next_rid := 7, next_nid := 4, next_task_id := 7, clock := 9 }

/-- The events the notification flush produces per joined row: one email
(success or failure subject/body chosen by the bundle status, `7` hex
characters in the subject) followed by the deletion of that notification
row. -/
def expectedNotifEvents (t : String) (id : List Nat)
    (pairs : List (Nat × String × String × Option String)) : List Event :=
  pairs.flatMap (fun p =>
    let hex_id := hashToHex id
    let short_id := strTake 7 hex_id
    if p.2.2.1 = "done" then
      [Event.email (notifSubjectSuccess t short_id)
        (notifBodySuccess t hex_id (vaultFetchUrl t hex_id)) p.2.1
        NOTIF_EMAIL_FROM,
       Event.delNotif p.1]
    else
      [Event.email (notifSubjectFailure t short_id)
        (notifBodyFailure t hex_id (pyStr p.2.2.2)) p.2.1 NOTIF_EMAIL_FROM,
       Event.delNotif p.1])

/-! ### Theorems -/

/-- Two appended strings concatenate their character data. -/
theorem strData_append (a b : String) : (a ++ b).data = a.data ++ b.data :=
  rfl

/-- Searching an appended list when the first part has no hit. -/
theorem find?_append_none {α : Type} (p : α → Bool) (l1 l2 : List α)
    (h : l1.find? p = none) : (l1 ++ l2).find? p = l2.find? p := by
  induction l1 with
  | nil => rfl
  | cons x xs ih =>
      simp only [List.cons_append, List.find?] at h ⊢
      cases hp : p x with
      | true => simp [hp] at h
      | false =>
          simp only [hp] at h ⊢
          exact ih h

/-- Nothing in a filtered-out list satisfies the predicate used to filter
it away. -/
theorem find?_filter_not {α : Type} (p : α → Bool) (l : List α) :
    (l.filter (fun x => !(p x))).find? p = none := by
  rw [List.find?_eq_none]
  intro x hx
  have := List.of_mem_filter hx
  simp only [Bool.not_eq_true'] at this
  simp [this]

/-- C1: the spec says a `PolicyError` raised by `prepare_bundle()` is
recorded as status `failed` with the error's own text, and any other
exception as status `failed` with the fixed internal-error message.  In
the code as written `cook()` raises `TypeError` while constructing its
size-limited sink — before the `try` block, so `prepare_bundle()` never
runs and the two exception handlers are unreachable: on both failing runs
the trace stops after the `pending`/`Processing...` calls, no `failed`
status and no progress message is ever stored. -/
theorem cook_crashes_before_error_handling :
    cook 8 prepPolicyInput = (pendingTrace, some PyExc.typeError) ∧
    cook 8 prepRuntimeInput = (pendingTrace, some PyExc.typeError) ∧
    (cook 8 prepPolicyInput).1.count (BackendCall.set_status "failed") = 0 ∧
    (cook 8 prepRuntimeInput).1.count (BackendCall.set_status "failed") = 0 ∧
    (cook 8 prepRuntimeInput).1.count
      (BackendCall.set_progress (some internalServerErrorMsg)) = 0 := by
  exact ⟨rfl, rfl, by decide, by decide, by decide⟩

/-- C2: the spec says every `cook()` run makes `send_notif` its final
backend call, with `put_bundle` before `set_status(done)` on success.  In
the code as written the sink constructor raises `TypeError` before the
`try`/`finally` block is entered, so even the successful mock run of
`test_simple_cook` makes no `send_notif`, `put_bundle` or
`set_status(done)` call at all. -/
theorem cook_never_notifies :
    cook default_max_bundle_size prepSimpleInput =
      (pendingTrace, some PyExc.typeError) ∧
    (cook default_max_bundle_size prepSimpleInput).1.count
      BackendCall.send_notif = 0 ∧
    (cook default_max_bundle_size prepSimpleInput).1.count
      (BackendCall.set_status "done") = 0 ∧
    (cook default_max_bundle_size prepSimpleInput).1.countP
      (fun c => match c with | BackendCall.put_bundle _ => true | _ => false)
      = 0 := by
  exact ⟨rfl, by decide, by decide, by decide⟩

/-- C3: the sink's `write` method does raise a policy error whose message
contains `exceeds` on an overflowing chunk, and the default size limit is
`2 ^ 29` bytes; but no sink can ever be constructed
(`BytesIOBundleSizeLimit.__init__` passes the instance itself to
`io.BytesIO.__init__`, a `TypeError`), so a cook whose stream exceeds the
limit ends with the `TypeError` escaping `cook()` — `put_bundle` is indeed
never called, but no `failed` status and no `exceeds` message is stored
either. -/
theorem size_limit_never_enforced :
    sizeLimitWrite ⟨some 8, []⟩ (asciiBytes "123456789") =
      .error (.policyExc (bundleTooLargeMsg 8)) ∧
    strContainsSub (bundleTooLargeMsg 8) "exceeds" ∧
    default_max_bundle_size = 536870912 ∧
    mkBytesIOBundleSizeLimit (some 8) = .error PyExc.typeError ∧
    (cook 8 prepPolicyInput).1 = pendingTrace ∧
    (cook 8 prepPolicyInput).2 = some PyExc.typeError ∧
    (cook 8 prepPolicyInput).1.countP
      (fun c => match c with | BackendCall.put_bundle _ => true | _ => false)
      = 0 ∧
    (cook 8 prepPolicyInput).1.count (BackendCall.set_status "failed") = 0 := by
  refine ⟨rfl, ⟨"The requested bundle ".data,
    " the maximum allowed size of 8 bytes.".data, by decide⟩,
    by decide, rfl, rfl, rfl, by decide, by decide⟩

/-- C7: the spec (and the docstring of `_create_revisions` itself) says a
revision entry is materialized as a broken symlink whose target text is
the hex object id; the body instead runs `os.makedirs` and produces an
empty directory — no symlink is ever created for a revision entry. -/
theorem create_revisions_makes_empty_dirs :
    _create_revisions "root" [revEntry] = [FsAction.makedirs "root/submod"] ∧
    FsAction.symlink (hashToHex revEntry.target) (pathJoin "root" revEntry.path)
      ∉ _create_revisions "root" [revEntry] ∧
    (_create_revisions "root" [revEntry]).countP
      (fun a => match a with | FsAction.symlink _ _ => true | _ => false)
      = 0 := by
  exact ⟨rfl, by decide, by decide⟩

/-- C6 counterexample: a `visible` file entry whose fetch returns null
produces the `SKIPPED` message, not a MISSING marker distinct from the
other two substitute messages. -/
theorem visible_fetch_null_gives_skipped :
    get_filtered_file_content (fun _ => none) none visibleFile =
      .ok SKIPPED_MESSAGE ∧
    SKIPPED_MESSAGE ≠ MISSING_MESSAGE ∧
    SKIPPED_MESSAGE ≠ HIDDEN_MESSAGE := by
  exact ⟨rfl, by decide, by decide⟩

/-- C6 (amended): `absent` entries produce the `SKIPPED` message, `hidden`
entries the `HIDDEN` message, `visible` entries the fetched bytes; a
`visible` entry whose fetch returns null produces the `SKIPPED` message
again (not a distinct marker); the `MISSING` marker is produced exactly
when the entry's status is null. -/
theorem get_filtered_file_content_spec
    (content_get_data : HashDict → Option String)
    (objstorage : Option (HashDict → Option String)) (fd : FileData) :
    (fd.status = some "absent" →
      get_filtered_file_content content_get_data objstorage fd =
        .ok SKIPPED_MESSAGE) ∧
    (fd.status = some "hidden" →
      get_filtered_file_content content_get_data objstorage fd =
        .ok HIDDEN_MESSAGE) ∧
    (fd.status = none →
      get_filtered_file_content content_get_data objstorage fd =
        .ok MISSING_MESSAGE) ∧
    (∀ d, fd.status = some "visible" →
      effectiveFetch content_get_data objstorage ⟨fd.sha1, fd.sha1_git⟩ =
        some d →
      get_filtered_file_content content_get_data objstorage fd = .ok d) ∧
    (fd.status = some "visible" →
      effectiveFetch content_get_data objstorage ⟨fd.sha1, fd.sha1_git⟩ =
        none →
      get_filtered_file_content content_get_data objstorage fd =
        .ok SKIPPED_MESSAGE) := by
  refine ⟨?_, ?_, ?_, ?_, ?_⟩
  · intro h
    simp [get_filtered_file_content, h]
  · intro h
    simp [get_filtered_file_content, h]
  · intro h
    simp [get_filtered_file_content, h]
  · intro d h hf
    cases objstorage with
    | none =>
        simp only [effectiveFetch] at hf
        simp [get_filtered_file_content, h, hf]
    | some og =>
        simp only [effectiveFetch] at hf
        simp [get_filtered_file_content, h, hf]
  · intro h hf
    cases objstorage with
    | none =>
        simp only [effectiveFetch] at hf
        simp [get_filtered_file_content, h, hf]
    | some og =>
        simp only [effectiveFetch] at hf
        simp [get_filtered_file_content, h, hf]

/-- Witness for the amended C6 theorem at concrete entries. -/
theorem get_filtered_file_content_spec_witness :
    get_filtered_file_content (fun _ => none) none absentFile =
      .ok SKIPPED_MESSAGE ∧
    get_filtered_file_content (fun _ => none) none hiddenFile =
      .ok HIDDEN_MESSAGE ∧
    get_filtered_file_content (fun _ => none) none nullStatusFile =
      .ok MISSING_MESSAGE ∧
    get_filtered_file_content (fun _ => some "data") none visibleFile =
      .ok "data" ∧
    get_filtered_file_content (fun _ => none) none visibleFile =
      .ok SKIPPED_MESSAGE :=
  ⟨(get_filtered_file_content_spec (fun _ => none) none absentFile).1 rfl,
   (get_filtered_file_content_spec (fun _ => none) none hiddenFile).2.1 rfl,
   (get_filtered_file_content_spec (fun _ => none) none nullStatusFile).2.2.1
     rfl,
   (get_filtered_file_content_spec (fun _ => some "data") none
     visibleFile).2.2.2.1 "data" rfl rfl,
   (get_filtered_file_content_spec (fun _ => none) none
     visibleFile).2.2.2.2 rfl rfl⟩
/-- Bind on `Except.ok` reduces. -/
theorem except_bind_ok {ε α β : Type} (a : α) (f : α → Except ε β) :
    (Except.ok (ε := ε) a >>= f) = f a := rfl

/-- Updating exactly the rows that were filtered away leaves the kept
rows alone. -/
theorem map_if_filter_not {α : Type} (p : α → Bool) (f : α → α)
    (l : List α) :
    (l.filter (fun x => !(p x))).map (fun x => if p x then f x else x) =
      l.filter (fun x => !(p x)) := by
  induction l with
  | nil => rfl
  | cons x xs ih =>
      cases hp : p x with
      | true => simp [List.filter_cons, hp, ih]
      | false => simp [List.filter_cons, hp, ih]

/-- The freshly created row matches its own key. -/
theorem keyMatch_freshRow (s : VaultDB) (t : String) (id : List Nat)
    (sticky : Bool) : keyMatch t id (freshRow s t id sticky) = true := by
  simp [keyMatch, freshRow]

/-- Reduction of `create_task` on a table cleared of the requested key:
the fresh row is inserted, the task enqueued, and the returned handle
stored on the row. -/
theorem create_task_on_cleared
    (s : VaultDB) (t : String) (id : List Nat) (sticky : Bool) :
    create_task true t id sticky
      { s with bundles := s.bundles.filter (fun row => !(keyMatch t id row)) } =
      Except.ok
        ({ s with
            bundles :=
              s.bundles.filter (fun row => !(keyMatch t id row)) ++
                [freshRow s t id sticky],
            next_rid := s.next_rid + 1,
            next_task_id := s.next_task_id + 1 },
         [Event.enqueueTask t (hashToHex id) s.next_task_id]) := by
  have hnone : task_info t id
      ({ s with bundles := s.bundles.filter (fun row => !(keyMatch t id row)) }) =
      none := find?_filter_not _ _
  simp only [create_task, hnone, Option.isSome_none]
  simp only [Bool.not_true, ite_false, Bool.false_eq_true, if_false, if_true, not_true]
  simp only [List.map_append, List.map_cons, List.map_nil]
  rw [map_if_filter_not]
  simp [freshRow, keyMatch]


/-- C4: `cook_request` on a `(type, id)` whose existing row has status
`failed` deletes every row with that key during the call and proceeds as
if the row were absent: a fresh row is created — its status is `new` (the
schema default, spec-modelled) — a new cooking task is enqueued, the
returned handle is stored on the new row, and the new row's info is what
the call returns.  The old row is gone from the final state. -/
theorem cook_request_retry_after_failure
    (s : VaultDB) (t : String) (id : List Nat) (sticky : Bool)
    (email : Option String) (r : BundleRow)
    (hinfo : task_info t id s = some r)
    (hfail : r.task_status = "failed") :
    (∃ out, cook_request true t id sticky email s = Except.ok out) ∧
    (∀ s' ev ret,
      cook_request true t id sticky email s = Except.ok (s', ev, ret) →
      s'.bundles =
        s.bundles.filter (fun row => !(keyMatch t id row)) ++
          [freshRow s t id sticky] ∧
      ret = some (freshRow s t id sticky) ∧
      ev = [Event.enqueueTask t (hashToHex id) s.next_task_id] ∧
      (freshRow s t id sticky).task_status = "new" ∧
      (freshRow s t id sticky).task_id = some s.next_task_id ∧
      r ∉ s'.bundles) := by
  have hkeyr : keyMatch t id r = true := List.find?_some hinfo
  have hinfo' : s.bundles.find? (keyMatch t id) = some r := hinfo
  have hfind_new :
      (s.bundles.filter (fun row => !(keyMatch t id row)) ++
        [freshRow s t id sticky]).find? (keyMatch t id) =
        some (freshRow s t id sticky) := by
    rw [find?_append_none _ _ _ (find?_filter_not _ _)]
    simp [List.find?, keyMatch_freshRow]
  have hcr : ∃ s3 : VaultDB,
      cook_request true t id sticky email s =
        Except.ok (s3, [Event.enqueueTask t (hashToHex id) s.next_task_id],
          some (freshRow s t id sticky)) ∧
      s3.bundles =
        s.bundles.filter (fun row => !(keyMatch t id row)) ++
          [freshRow s t id sticky] := by
    cases email with
    | none =>
        refine ⟨{ s with
            bundles := s.bundles.filter (fun row => !(keyMatch t id row)) ++
              [freshRow s t id sticky],
            next_rid := s.next_rid + 1,
            next_task_id := s.next_task_id + 1 }, ?_, rfl⟩
        simp [cook_request, task_info, hinfo', hfail,
          create_task_on_cleared, except_bind_ok, hfind_new]
    | some em =>
        refine ⟨{ s with
            bundles := s.bundles.filter (fun row => !(keyMatch t id row)) ++
              [freshRow s t id sticky],
            next_rid := s.next_rid + 1,
            next_task_id := s.next_task_id + 1,
            notifs := s.notifs ++
              [⟨s.next_nid, (freshRow s t id sticky).rid, em⟩],
            next_nid := s.next_nid + 1 }, ?_, rfl⟩
        simp [cook_request, task_info, hinfo', hfail,
          create_task_on_cleared, except_bind_ok, hfind_new,
          add_notif_email]
  obtain ⟨s3, hcr3, hb3⟩ := hcr
  refine ⟨⟨_, hcr3⟩, ?_⟩
  intro s' ev ret hres
  rw [hcr3] at hres
  simp only [Except.ok.injEq, Prod.mk.injEq] at hres
  obtain ⟨hs', hev, hret⟩ := hres
  subst hs'
  refine ⟨hb3, hret.symm, hev.symm, rfl, rfl, ?_⟩
  rw [hb3]
  intro hmem
  rcases List.mem_append.mp hmem with hmf | hmf
  · have := List.of_mem_filter hmf
    simp only [Bool.not_eq_true'] at this
    rw [hkeyr] at this
    exact absurd this (by decide)
  · have : r = freshRow s t id sticky := List.mem_singleton.mp hmf
    have h2 : r.task_status = "new" := by rw [this]; rfl
    rw [hfail] at h2
    exact absurd h2 (by decide)

/-- Witness for C4 at a concrete failed row. -/
theorem cook_request_retry_after_failure_witness :
    task_info "directory" [17, 34] wFailedDB = some wFailedRow ∧
    wFailedRow.task_status = "failed" ∧
    (∃ out,
      cook_request true "directory" [17, 34] false none wFailedDB =
        Except.ok out) :=
  ⟨rfl, rfl,
   (cook_request_retry_after_failure wFailedDB "directory" [17, 34] false
     none wFailedRow rfl rfl).1⟩
/-- Sorted insertion only rearranges: members come from the inserted
element or the original list. -/
theorem insSorted_mem (le : BundleRow → BundleRow → Bool) (x : BundleRow)
    (l : List BundleRow) (y : BundleRow) :
    y ∈ insSorted le x l → y = x ∨ y ∈ l := by
  induction l with
  | nil => intro h; simp [insSorted] at h; exact Or.inl h
  | cons z zs ih =>
      intro h
      simp only [insSorted] at h
      by_cases hle : le x z
      · simp only [hle, if_true] at h
        rcases List.mem_cons.mp h with h | h
        · exact Or.inl h
        · exact Or.inr h
      · simp only [hle, if_false, Bool.false_eq_true] at h
        rcases List.mem_cons.mp h with h | h
        · exact Or.inr (by simp [h])
        · rcases ih h with h | h
          · exact Or.inl h
          · exact Or.inr (List.mem_cons_of_mem _ h)

/-- The `ORDER BY` of the embedded select does not invent rows. -/
theorem sortRows_mem (le : BundleRow → BundleRow → Bool)
    (l : List BundleRow) (y : BundleRow) :
    y ∈ sortRows le l → y ∈ l := by
  induction l with
  | nil => intro h; simp [sortRows] at h
  | cons z zs ih =>
      intro h
      rcases insSorted_mem le z (sortRows le zs) y h with h | h
      · simp [h]
      · exact List.mem_cons_of_mem _ (ih h)

/-- `_cache_expire` never touches a sticky row: the select filters on
`sticky = false`, so the sticky row survives the SQL delete and no
deletion event carries its key (given the primary-key and unique-key
invariants of the table). -/
theorem cache_expire_keeps_sticky
    (cond : List BundleRow → List BundleRow)
    (hsub : ∀ rows, ∀ x ∈ cond rows, x ∈ rows)
    (s : VaultDB) (r : BundleRow)
    (hr : r ∈ s.bundles) (hst : r.sticky = true)
    (huniq : uniqueRids s.bundles) (hukey : uniqueKeys s.bundles) :
    r ∈ (_cache_expire cond s).1.bundles ∧
    ∀ e ∈ (_cache_expire cond s).2,
      e ≠ Event.cacheDelete r.btype r.object_id ∧
      e ≠ Event.dbDeleteRow r.btype r.object_id := by
  have hsel : ∀ x ∈ cond (s.bundles.filter (fun row => row.sticky == false)),
      x ∈ s.bundles ∧ x.sticky = false := by
    intro x hx
    have hx2 := hsub _ x hx
    have hmem := List.mem_filter.mp hx2
    refine ⟨hmem.1, ?_⟩
    simpa using hmem.2
  constructor
  · simp only [_cache_expire]
    refine List.mem_filter.mpr ⟨hr, ?_⟩
    simp only [Bool.not_eq_true']
    rw [List.contains_eq_any_beq]
    simp only [List.any_eq_false]
    intro a ha
    rcases List.mem_map.mp ha with ⟨x, hxsel, hxa⟩
    have hx := hsel x hxsel
    intro hbeq
    have hra : r.rid = a := by simpa using hbeq
    have hxr : x = r := huniq x hx.1 r hr (by rw [hxa, hra])
    rw [hxr, hst] at hx
    exact absurd hx.2 (by decide)
  · intro e he
    simp only [_cache_expire] at he
    rcases List.mem_append.mp he with he | he <;>
      rcases List.mem_map.mp he with ⟨x, hxsel, hxe⟩ <;>
      have hx := hsel x hxsel
    · constructor
      · rw [← hxe]; intro h; cases h
      · rw [← hxe]
        intro h
        injection h with h1 h2
        have hxr : x = r := hukey x hx.1 r hr h1 h2
        rw [hxr, hst] at hx
        exact absurd hx.2 (by decide)
    · constructor
      · rw [← hxe]
        intro h
        injection h with h1 h2
        have hxr : x = r := hukey x hx.1 r hr h1 h2
        rw [hxr, hst] at hx
        exact absurd hx.2 (by decide)
      · rw [← hxe]; intro h; cases h

/-- Store-first, blob-second: in the event trace of `_cache_expire`,
every `cache.delete` of a key is preceded by the SQL deletion of the row
with that key. -/
theorem cache_expire_store_first
    (cond : List BundleRow → List BundleRow) (s : VaultDB) :
    ∀ (i : Nat) (ty : String) (oid : List Nat),
      (_cache_expire cond s).2[i]? = some (Event.cacheDelete ty oid) →
      ∃ j, j < i ∧
        (_cache_expire cond s).2[j]? = some (Event.dbDeleteRow ty oid) := by
  intro i ty oid hi
  simp only [_cache_expire] at hi ⊢
  set selected := cond (s.bundles.filter (fun row => row.sticky == false))
    with hselected
  have hlen : (selected.map
      (fun r => Event.dbDeleteRow r.btype r.object_id)).length =
      selected.length := List.length_map _ _
  by_cases hlt : i < selected.length
  · rw [List.getElem?_append, if_pos (by rw [hlen]; exact hlt)] at hi
    rw [List.getElem?_map] at hi
    rcases hx : selected[i]? with _ | x
    · rw [hx] at hi; cases hi
    · rw [hx] at hi
      exact absurd (Option.some.inj hi) (fun h => by cases h)
  · push_neg at hlt
    rw [List.getElem?_append_right (by rw [hlen]; exact hlt)] at hi
    rw [hlen] at hi
    rw [List.getElem?_map] at hi
    rcases hx : selected[i - selected.length]? with _ | x
    · rw [hx] at hi; cases hi
    · rw [hx] at hi
      have hi2 : Event.cacheDelete x.btype x.object_id =
          Event.cacheDelete ty oid := Option.some.inj hi
      injection hi2 with hxty hxoid
      obtain ⟨hm, _⟩ := List.getElem?_eq_some.mp hx
      refine ⟨i - selected.length, ?_, ?_⟩
      · omega
      · rw [List.getElem?_append, if_pos (by rw [hlen]; exact hm)]
        rw [List.getElem?_map, hx, ← hxty, ← hxoid]
        rfl

/-- C8: neither `cache_expire_oldest(n, by)` nor
`cache_expire_until(date, by)` deletes a sticky row or its cache blob,
and for every expired row the database deletion precedes the cache-blob
deletion.  Both calls succeed for every valid `by` column. -/
theorem expiration_spares_sticky
    (s : VaultDB) (r : BundleRow) (n date : Nat) (by_ : String)
    (hby : by_ = "created" ∨ by_ = "done" ∨ by_ = "last_access")
    (hr : r ∈ s.bundles) (hst : r.sticky = true)
    (huniq : uniqueRids s.bundles) (hukey : uniqueKeys s.bundles) :
    (∃ res, cache_expire_oldest n by_ s = Except.ok res) ∧
    (∃ res, cache_expire_until date by_ s = Except.ok res) ∧
    (∀ res : VaultDB × List Event,
      (cache_expire_oldest n by_ s = Except.ok res ∨
       cache_expire_until date by_ s = Except.ok res) →
      r ∈ res.1.bundles ∧
      (∀ e ∈ res.2,
        e ≠ Event.cacheDelete r.btype r.object_id ∧
        e ≠ Event.dbDeleteRow r.btype r.object_id) ∧
      (∀ (i : Nat) (ty : String) (oid : List Nat),
        res.2[i]? = some (Event.cacheDelete ty oid) →
        ∃ j, j < i ∧ res.2[j]? = some (Event.dbDeleteRow ty oid))) := by
  have hO : cache_expire_oldest n by_ s =
      Except.ok (_cache_expire
        (fun rows => (sortRows (tsLe by_) rows).take n) s) := by
    simp only [cache_expire_oldest, if_pos hby]
  have hU : cache_expire_until date by_ s =
      Except.ok (_cache_expire
        (fun rows => rows.filter (fun row =>
          match tsKey by_ row with
          | some ts => ts ≤ date
          | none => false)) s) := by
    simp only [cache_expire_until, if_pos hby]
  have hsubO : ∀ rows : List BundleRow,
      ∀ x ∈ (sortRows (tsLe by_) rows).take n, x ∈ rows := by
    intro rows x hx
    exact sortRows_mem _ _ _ (List.take_subset _ _ hx)
  have hsubU : ∀ rows : List BundleRow,
      ∀ x ∈ rows.filter (fun row =>
        match tsKey by_ row with
        | some ts => ts ≤ date
        | none => false), x ∈ rows := by
    intro rows x hx
    exact List.mem_of_mem_filter hx
  refine ⟨⟨_, hO⟩, ⟨_, hU⟩, ?_⟩
  intro res hres
  rcases hres with hres | hres
  · rw [hO] at hres
    injection hres with h1
    subst h1
    exact ⟨(cache_expire_keeps_sticky _ hsubO s r hr hst huniq hukey).1,
           (cache_expire_keeps_sticky _ hsubO s r hr hst huniq hukey).2,
           cache_expire_store_first _ s⟩
  · rw [hU] at hres
    injection hres with h1
    subst h1
    exact ⟨(cache_expire_keeps_sticky _ hsubU s r hr hst huniq hukey).1,
           (cache_expire_keeps_sticky _ hsubU s r hr hst huniq hukey).2,
           cache_expire_store_first _ s⟩

/-- Witness for C8 on a concrete two-row table. -/
theorem expiration_spares_sticky_witness :
    wStickyRow ∈ wExpireDB.bundles ∧ wStickyRow.sticky = true ∧
    (∃ res, cache_expire_oldest 1 "last_access" wExpireDB = Except.ok res) ∧
    (∃ res, cache_expire_until 100 "last_access" wExpireDB = Except.ok res) :=
  ⟨by decide, rfl,
   (expiration_spares_sticky wExpireDB wStickyRow 1 100 "last_access"
     (Or.inr (Or.inr rfl)) (by decide) rfl
     (by unfold uniqueRids; decide) (by unfold uniqueKeys; decide)).1,
   (expiration_spares_sticky wExpireDB wStickyRow 1 100 "last_access"
     (Or.inr (Or.inr rfl)) (by decide) rfl
     (by unfold uniqueRids; decide) (by unfold uniqueKeys; decide)).2.1⟩

/-- A notification subject of the form `<prefix><type> <hex[:7]>`
contains the bundle type and the first five hex characters of the id as
substrings (the five are a prefix of the seven). -/
theorem subject_contains (pre t hex : String) :
    strContainsSub (pre ++ t ++ " " ++ strTake 7 hex) t ∧
    strContainsSub (pre ++ t ++ " " ++ strTake 7 hex) (strTake 5 hex) := by
  constructor
  · refine ⟨pre.data, (" " ++ strTake 7 hex).data, ?_⟩
    simp [strData_append]
  · refine ⟨(pre ++ t ++ " ").data, (hex.data.take 7).drop 5, ?_⟩
    have h57 : hex.data.take 5 ++ (hex.data.take 7).drop 5 =
        hex.data.take 7 := by
      have h := List.take_append_drop 5 (hex.data.take 7)
      rw [List.take_take] at h
      simpa using h
    show (pre ++ t ++ " " ++ strTake 7 hex).data = _
    simp only [strData_append, strTake, List.append_assoc]
    rw [h57]

/-- The notification loop on rows whose bundle status is terminal: every
selected row yields one email followed by the deletion of that row, and
the surviving notification rows are exactly those not selected. -/
theorem sendNotifLoop_terminal (t : String) (id : List Nat)
    (pairs : List (Nat × String × String × Option String)) :
    ∀ (s : VaultDB) (ev0 : List Event),
    (∀ p ∈ pairs, p.2.2.1 = "done" ∨ p.2.2.1 = "failed") →
    sendNotifLoop t id pairs s ev0 =
      ({ s with notifs := s.notifs.filter (fun nr => !((pairs.map (fun p => p.1)).contains nr.nid)) },
       ev0 ++ expectedNotifEvents t id pairs, none) := by
  induction pairs with
  | nil =>
      intro s ev0 h
      simp [sendNotifLoop, expectedNotifEvents, List.contains]
  | cons p rest ih =>
      intro s ev0 h
      obtain ⟨nid, em, st, pm⟩ := p
      have hst := h _ (List.mem_cons_self _ _)
      have hrest : ∀ q ∈ rest, q.2.2.1 = "done" ∨ q.2.2.1 = "failed" :=
        fun q hq => h q (List.mem_cons_of_mem _ hq)
      have hfilter :
          (s.notifs.filter (fun n => n.nid != nid)).filter
            (fun nr => !((rest.map (fun p => p.1)).contains nr.nid)) =
          s.notifs.filter
            (fun nr =>
              !((((nid, em, st, pm) :: rest).map
                  (fun p => p.1)).contains nr.nid)) := by
        rw [List.filter_filter]
        apply List.filter_congr
        intro x _
        simp [List.contains_eq_any_beq, Bool.and_comm, bne]
      simp only at hst
      rcases hst with hst | hst
      · subst hst
        have hdd : (("done" : String) = "done") = True := eq_true rfl
        simp only [sendNotifLoop, send_notification, smtpSendAndDelete,
          hdd, if_true]
        rw [ih _ _ hrest]
        simp only [Prod.mk.injEq, VaultDB.mk.injEq, true_and, and_true]
        exact ⟨hfilter, by simp [expectedNotifEvents, List.append_assoc]⟩
      · subst hst
        have hfd : (("failed" : String) = "done") = False :=
          eq_false (by decide)
        have hff : (("failed" : String) = "failed") = True := eq_true rfl
        simp only [sendNotifLoop, send_notification, smtpSendAndDelete,
          hfd, hff, if_false, if_true]
        rw [ih _ _ hrest]
        simp only [Prod.mk.injEq, VaultDB.mk.injEq, true_and, and_true]
        exact ⟨hfilter, by simp [expectedNotifEvents, List.append_assoc]⟩

/-- Field content of a successful key match. -/
theorem keyMatch_eq (t : String) (id : List Nat) (x : BundleRow)
    (h : keyMatch t id x = true) : x.btype = t ∧ x.object_id = id := by
  simpa [keyMatch] using h

/-- Every joined notification row comes from a notification and a bundle
row satisfying the join predicate. -/
theorem notifJoin_mem (t : String) (id : List Nat) (s : VaultDB)
    (p : Nat × String × String × Option String)
    (hp : p ∈ notifJoin t id s) :
    ∃ n ∈ s.notifs, ∃ b2 ∈ s.bundles,
      (b2.rid == n.bundle_id && keyMatch t id b2) = true ∧
      p = (n.nid, n.email, b2.task_status, b2.progress_msg) := by
  obtain ⟨n, hn, hfn⟩ := List.mem_filterMap.mp hp
  cases hfind : s.bundles.find?
      (fun b => b.rid == n.bundle_id && keyMatch t id b) with
  | none => rw [hfind] at hfn; cases hfn
  | some b2 =>
      rw [hfind] at hfn
      have hpredb2 : (b2.rid == n.bundle_id && keyMatch t id b2) = true := by
        have := List.find?_some hfind
        simpa using this
      exact ⟨n, hn, b2, List.mem_of_find?_eq_some hfind, hpredb2,
        (Option.some.inj hfn).symm⟩

/-- Under the unique-key constraint, every joined row carries the status
of the bundle with the requested key. -/
theorem notifJoin_status (t : String) (id : List Nat) (s : VaultDB)
    (b : BundleRow) (hb : b ∈ s.bundles) (hkey : keyMatch t id b = true)
    (hukey : uniqueKeys s.bundles) :
    ∀ p ∈ notifJoin t id s, p.2.2.1 = b.task_status := by
  intro p hp
  obtain ⟨n, hn, b2, hb2, hpred, hpeq⟩ := notifJoin_mem t id s p hp
  have hpred2 := hpred
  rw [Bool.and_eq_true] at hpred2
  have hkm2 : keyMatch t id b2 = true := hpred2.2
  have hf1 := keyMatch_eq t id b2 hkm2
  have hf2 := keyMatch_eq t id b hkey
  have hbb : b2 = b :=
    hukey b2 hb2 b hb (by rw [hf1.1, hf2.1]) (by rw [hf1.2, hf2.2])
  rw [hpeq]
  simp [hbb]

/-- C9: flushing the notifications of a `done` or `failed` bundle
succeeds, sends exactly one email per pending entry — each email's
subject contains the bundle type and the first five hex characters of
the object id, and each entry's row is deleted right after its send
returns — leaves no notification row for that bundle, and a second
invocation sends nothing. -/
theorem send_all_notifications_flush
    (s : VaultDB) (t : String) (id : List Nat) (b : BundleRow)
    (hb : b ∈ s.bundles) (hkey : keyMatch t id b = true)
    (hstatus : b.task_status = "done" ∨ b.task_status = "failed")
    (hukey : uniqueKeys s.bundles) :
    ∀ (s' : VaultDB) (ev : List Event) (err : Option VaultErr),
      send_all_notifications t id s = (s', ev, err) →
      err = none ∧
      ev = expectedNotifEvents t id (notifJoin t id s) ∧
      s'.bundles = s.bundles ∧
      (∀ nr ∈ s'.notifs, nr.bundle_id ≠ b.rid) ∧
      send_all_notifications t id s' = (s', [], none) ∧
      (∀ subj body toa fra : String, Event.email subj body toa fra ∈ ev →
        strContainsSub subj t ∧
        strContainsSub subj (strTake 5 (hashToHex id))) := by
  have hterm : ∀ p ∈ notifJoin t id s,
      p.2.2.1 = "done" ∨ p.2.2.1 = "failed" := by
    intro p hp
    rw [notifJoin_status t id s b hb hkey hukey p hp]
    exact hstatus
  have hloop := sendNotifLoop_terminal t id (notifJoin t id s) s [] hterm
  intro s' ev err hres
  rw [send_all_notifications, hloop] at hres
  simp only [Prod.mk.injEq] at hres
  obtain ⟨h1, h2, h3⟩ := hres
  have hsnotifs : s'.notifs = s.notifs.filter
      (fun nr => !(((notifJoin t id s).map (fun p => p.1)).contains nr.nid)) := by
    rw [← h1]
  have hremaining : ∀ nr ∈ s'.notifs, nr.bundle_id ≠ b.rid := by
    intro nr hnr hbad
    rw [hsnotifs] at hnr
    obtain ⟨hmem, hcond⟩ := List.mem_filter.mp hnr
    have hpredb : (b.rid == nr.bundle_id && keyMatch t id b) = true := by
      rw [hbad]
      simp [hkey]
    have hjoined : (∃ p ∈ notifJoin t id s, p.1 = nr.nid) := by
      cases hfind : s.bundles.find?
          (fun x => x.rid == nr.bundle_id && keyMatch t id x) with
      | none =>
          exact absurd hpredb
            (by simpa using List.find?_eq_none.mp hfind b hb)
      | some b3 =>
          refine ⟨(nr.nid, nr.email, b3.task_status, b3.progress_msg),
            ?_, rfl⟩
          refine List.mem_filterMap.mpr ⟨nr, hmem, ?_⟩
          rw [hfind]
          rfl
    obtain ⟨p, hpmem, hpnid⟩ := hjoined
    have hcontains : ((notifJoin t id s).map
        (fun p => p.1)).contains nr.nid = true := by
      rw [List.contains_eq_any_beq]
      rw [List.any_eq_true]
      exact ⟨p.1, List.mem_map_of_mem _ hpmem, by rw [hpnid]; simp⟩
    rw [hcontains] at hcond
    cases hcond
  refine ⟨h3.symm, ?_, by rw [← h1], hremaining, ?_, ?_⟩
  · rw [← h2]
    simp
  · have hjoinnil : notifJoin t id s' = [] := by
      rw [notifJoin]
      rw [List.filterMap_eq_nil_iff]
      intro nr hnr
      have hbid := hremaining nr hnr
      have hbundles : s'.bundles = s.bundles := by rw [← h1]
      rw [hbundles]
      cases hfind : s.bundles.find?
          (fun x => x.rid == nr.bundle_id && keyMatch t id x) with
      | none => rfl
      | some b3 =>
          have hpred3 : (b3.rid == nr.bundle_id && keyMatch t id b3) = true := by
            have := List.find?_some hfind
            simpa using this
          have hb3 := List.mem_of_find?_eq_some hfind
          rw [Bool.and_eq_true] at hpred3
          have hkm3 : keyMatch t id b3 = true := hpred3.2
          have hrid3 : b3.rid = nr.bundle_id := by
            have := hpred3.1
            simpa using this
          have hf1 := keyMatch_eq t id b3 hkm3
          have hf2 := keyMatch_eq t id b hkey
          have hbb : b3 = b := hukey b3 hb3 b hb
            (by rw [hf1.1, hf2.1]) (by rw [hf1.2, hf2.2])
          exact absurd (by rw [← hbb, hrid3] : nr.bundle_id = b.rid)
            (hbid)
    rw [send_all_notifications, hjoinnil]
    rfl
  · intro subj body toa fra hmail
    rw [← h2] at hmail
    simp only [List.nil_append] at hmail
    obtain ⟨p, hp, he⟩ := List.mem_flatMap.mp hmail
    by_cases hst : p.2.2.1 = "done"
    · rw [if_pos hst] at he
      rcases List.mem_cons.mp he with he | he
      · injection he with e1 e2 e3 e4
        rw [e1]
        exact subject_contains "Bundle ready: " t (hashToHex id)
      · rcases List.mem_cons.mp he with he | he
        · injection he
        · cases he
    · rw [if_neg hst] at he
      rcases List.mem_cons.mp he with he | he
      · injection he with e1 e2 e3 e4
        rw [e1]
        exact subject_contains "Bundle failed: " t (hashToHex id)
      · rcases List.mem_cons.mp he with he | he
        · injection he
        · cases he

/-- Witness for C9: after flushing the two pending notifications of the
concrete `done` bundle, re-invoking the flush sends zero messages. -/
theorem send_all_notifications_flush_witness :
    send_all_notifications "revision_gitfast" [74, 75, 151, 113, 84]
        ((send_all_notifications "revision_gitfast" [74, 75, 151, 113, 84]
          wNotifDB).1) =
      ((send_all_notifications "revision_gitfast" [74, 75, 151, 113, 84]
          wNotifDB).1, [], none) ∧
    (send_all_notifications "revision_gitfast" [74, 75, 151, 113, 84]
        wNotifDB).2.2 = none :=
  ⟨(send_all_notifications_flush wNotifDB "revision_gitfast"
      [74, 75, 151, 113, 84] wDoneRow (by decide) rfl (Or.inl rfl)
      (by unfold uniqueKeys; decide) _ _ _ rfl).2.2.2.2.1,
   rfl⟩

/-- C10: `send_notification` on a status other than `done`/`failed`
raises `RuntimeError` before any mail is sent or row deleted, and
`send_all_notifications` on a bundle that has not reached a terminal
status emits no event and leaves the state unchanged. -/
theorem notification_requires_terminal_status :
    (∀ (n_id : Option Nat) (em t : String) (id : List Nat)
       (status : String) (pm : Option String) (s : VaultDB),
       status ≠ "done" → status ≠ "failed" →
       send_notification n_id em t id status pm s =
         Except.error (VaultErr.runtimeError
           ("send_notification called on a " ++ status ++ " bundle"))) ∧
    (∀ (s : VaultDB) (t : String) (id : List Nat) (b : BundleRow),
       b ∈ s.bundles → keyMatch t id b = true →
       b.task_status ≠ "done" → b.task_status ≠ "failed" →
       uniqueKeys s.bundles →
       (send_all_notifications t id s).1 = s ∧
       (send_all_notifications t id s).2.1 = ([] : List Event)) := by
  have part1 : ∀ (n_id : Option Nat) (em t : String) (id : List Nat)
      (status : String) (pm : Option String) (s : VaultDB),
      status ≠ "done" → status ≠ "failed" →
      send_notification n_id em t id status pm s =
        Except.error (VaultErr.runtimeError
          ("send_notification called on a " ++ status ++ " bundle")) := by
    intro n_id em t id status pm s h1 h2
    simp only [send_notification, if_neg h1, if_neg h2]
  refine ⟨part1, ?_⟩
  intro s t id b hb hkey h1 h2 hukey
  have hstat := notifJoin_status t id s b hb hkey hukey
  cases hjoin : notifJoin t id s with
  | nil =>
      simp only [send_all_notifications, hjoin]
      exact ⟨by trivial, by trivial⟩
  | cons p rest =>
      have hp := hstat p (by rw [hjoin]; exact List.mem_cons_self _ _)
      obtain ⟨nid, em, st, pm⟩ := p
      simp only at hp
      have herr := part1 (some nid) em t id st pm s
        (by rw [hp]; exact h1) (by rw [hp]; exact h2)
      have hloop2 : sendNotifLoop t id ((nid, em, st, pm) :: rest) s [] =
          (s, [], some (VaultErr.runtimeError
            ("send_notification called on a " ++ st ++ " bundle"))) := by
        simp only [sendNotifLoop]
        rw [herr]
      simp only [send_all_notifications, hjoin, hloop2]
      exact ⟨by trivial, by trivial⟩

/-- Witness for C10 on a concrete `new` bundle with one queued
notification. -/
theorem notification_requires_terminal_status_witness :
    send_notification (some 3) "c@example.com" "directory" [6] "new" none
        wNewDB =
      Except.error (VaultErr.runtimeError
        "send_notification called on a new bundle") ∧
    (send_all_notifications "directory" [6] wNewDB).1 = wNewDB ∧
    (send_all_notifications "directory" [6] wNewDB).2.1 = [] :=
  ⟨notification_requires_terminal_status.1 (some 3) "c@example.com"
     "directory" [6] "new" none wNewDB (by decide) (by decide),
   (notification_requires_terminal_status.2 wNewDB "directory" [6] wNewRow
     (by decide) rfl (by decide) (by decide)
     (by unfold uniqueKeys; decide)).1,
   (notification_requires_terminal_status.2 wNewDB "directory" [6] wNewRow
     (by decide) rfl (by decide) (by decide)
     (by unfold uniqueKeys; decide)).2⟩

/-- C5 counterexample: in a cooking run over a root directory whose two
subdirectories both hold a submodule entry pointing at the same revision
`cexRv`, the run completes, yet the object file of `cexRv` is written
twice — `write_object` performs no existence check and
`load_revision_subgraph` has no guard, so a revision whose file already
exists is not skipped. -/
theorem revision_object_written_twice :
    writeCount cexRv cexRun.1 = 2 ∧
    cexRun.2 = none ∧
    ¬(writeCount cexRv cexRun.1 ≤ 1) := by
  exact ⟨by decide, rfl, by decide⟩

/-- A successful storage lookup returns a stored pair. -/
theorem alookup_mem {β : Type} (l : List (List Nat × β)) (k : List Nat)
    (v : β) (h : alookup l k = some v) : (k, v) ∈ l := by
  rw [alookup] at h
  cases hfind : l.find? (fun p => p.1 == k) with
  | none => rw [hfind] at h; cases h
  | some p =>
      rw [hfind] at h
      have hp1 : p.1 = k := by
        have := List.find?_some hfind
        simpa using this
      have hp2 : p.2 = v := Option.some.inj h
      have hmem := List.mem_of_find?_eq_some hfind
      rw [← hp1, ← hp2]
      exact hmem

/-- The revision walker only yields revisions stored in the archive. -/
theorem dfsWalk_mem (storage : GitStorage) :
    ∀ (fuel : Nat) (stack visited : List (List Nat)) (r : RevisionData),
      r ∈ dfsWalk storage fuel stack visited →
      ∃ k, (k, r) ∈ storage.revisions := by
  intro fuel
  induction fuel with
  | zero => intro stack visited r h; simp [dfsWalk] at h
  | succ fuel ih =>
      intro stack visited r h
      cases stack with
      | nil => simp [dfsWalk] at h
      | cons id rest =>
          simp only [dfsWalk] at h
          by_cases hv : id ∈ visited
          · rw [if_pos hv] at h
            exact ih _ _ _ h
          · rw [if_neg hv] at h
            cases hlk : alookup storage.revisions id with
            | none =>
                rw [hlk] at h
                exact ih _ _ _ h
            | some rev =>
                rw [hlk] at h
                rcases List.mem_cons.mp h with h | h
                · exact ⟨id, h ▸ alookup_mem _ _ _ hlk⟩
                · exact ih _ _ _ h

/-- The freshly initialized repository satisfies the write-once
invariant. -/
theorem dirContentOnce_init (rids : List (List Nat)) :
    dirContentOnce rids initCookerState := by
  intro id _
  simp [writeCount, initCookerState]

/-- Effect of one `write_object` on the per-id write counter. -/
theorem writeCount_write (env : GitBareEnv) (id i obj : List Nat)
    (st : CookerState) :
    writeCount id (write_object env i obj st) =
      writeCount id st + (if i = id then 1 else 0) := by
  simp only [writeCount, write_object, List.filter_append, List.length_append]
  by_cases h : i = id
  · simp [h]
  · simp [List.filter_cons, h]

/-- A directory entry of unknown type raises the `entry_loaders`
`KeyError` and writes nothing. -/
theorem runTask_badEntry (env : GitBareEnv) (fuel : Nat) (st : CookerState) :
    runTask env (fuel + 1) .badEntry st = (st, some CookErr.keyError) := by
  simp [runTask]

/-- Effect of one `write_object` on file existence. -/
theorem mem_written_write (env : GitBareEnv) (id0 i obj : List Nat)
    (st : CookerState) :
    id0 ∈ (write_object env i obj st).written ↔
      id0 = i ∨ id0 ∈ st.written := by
  simp [write_object]

/-- A negative existence check means the id has no file on disk. -/
theorem object_exists_false_not_mem (st : CookerState) (id : List Nat)
    (h : object_exists st id = false) : id ∉ st.written := by
  intro hm
  have hc : st.written.contains id = true := by
    rw [List.contains_eq_any_beq, List.any_eq_true]
    exact ⟨id, hm, by simp⟩
  rw [object_exists] at h
  rw [h] at hc
  cases hc

/-- Writing a revision id preserves the write-once invariant for
non-revision ids. -/
theorem inv_write_rid (env : GitBareEnv) (rids : List (List Nat))
    (i obj : List Nat) (st : CookerState) (hi : i ∈ rids)
    (hinv : dirContentOnce rids st) :
    dirContentOnce rids (write_object env i obj st) := by
  intro id0 hid0
  have hne : i ≠ id0 := fun h => hid0 (h ▸ hi)
  have h0 := hinv id0 hid0
  rw [writeCount_write, if_neg hne]
  simp only [Nat.add_zero]
  refine ⟨h0.1, ?_⟩
  rw [mem_written_write]
  constructor
  · intro h
    rcases h with h | h
    · exact absurd h.symm hne
    · exact h0.2.mp h
  · intro h
    exact Or.inr (h0.2.mpr h)

/-- A guarded write (the file did not exist) preserves the write-once
invariant. -/
theorem inv_write_fresh (env : GitBareEnv) (rids : List (List Nat))
    (i obj : List Nat) (st : CookerState)
    (hiw : i ∉ st.written) (hinv : dirContentOnce rids st) :
    dirContentOnce rids (write_object env i obj st) := by
  intro id0 hid0
  by_cases he : i = id0
  · subst he
    have h0 := hinv i hid0
    have hc0 : writeCount i st = 0 := by
      rcases Nat.eq_or_lt_of_le h0.1 with h | h
    -- count is 0 or 1; it cannot be 1 because the file does not exist
      · exact absurd (h0.2.mpr h) hiw
      · omega
    rw [writeCount_write, if_pos rfl, hc0]
    constructor
    · omega
    · rw [mem_written_write]
      simp
  · have h0 := hinv id0 hid0
    rw [writeCount_write, if_neg he]
    simp only [Nat.add_zero]
    refine ⟨h0.1, ?_⟩
    rw [mem_written_write]
    constructor
    · intro h
      rcases h with h | h
      · exact absurd h.symm he
      · exact h0.2.mp h
    · intro h
      exact Or.inr (h0.2.mpr h)

/-- The `entry_loaders` dispatch never produces an unguarded revision
write directly. -/
theorem entryTask_good (rids : List (List Nat)) (e : DirEntry) :
    goodTask rids (entryTask e) := by
  by_cases h1 : e.etype = "file"
  · simp [entryTask, h1, goodTask]
  · by_cases h2 : e.etype = "dir"
    · simp [entryTask, h1, h2, goodTask]
    · by_cases h3 : e.etype = "rev"
      · simp [entryTask, h1, h2, h3, goodTask]
      · simp [entryTask, h1, h2, h3, goodTask]

/-- Invariant preservation for the whole loading recursion: assuming the
storage is well formed (each stored revision carries its own key as id),
every loading step keeps non-revision object files written at most once,
with file existence tracking the write count. -/
theorem gitbare_once_aux (env : GitBareEnv)
    (hwf : ∀ p ∈ env.storage.revisions, p.2.id = p.1) :
    ∀ fuel : Nat,
      (∀ (t : LoadTask) (st : CookerState),
        goodTask (revIds env.storage) t →
        dirContentOnce (revIds env.storage) st →
        dirContentOnce (revIds env.storage) (runTask env fuel t st).1) ∧
      (∀ (l : List LoadTask) (st : CookerState),
        (∀ t ∈ l, goodTask (revIds env.storage) t) →
        dirContentOnce (revIds env.storage) st →
        dirContentOnce (revIds env.storage) (runTaskList env fuel l st).1) := by
  intro fuel
  induction fuel with
  | zero =>
      constructor
      · intro t st _ hinv
        exact hinv
      · intro l st _ hinv
        exact hinv
  | succ fuel ih =>
      obtain ⟨ihT, ihL⟩ := ih
      constructor
      · intro t st hgood hinv
        cases t with
        | badEntry =>
            exact hinv
        | revNode rev =>
            exact inv_write_rid env _ rev.id _ st hgood hinv
        | file id =>
            simp only [runTask]
            by_cases hex : object_exists st id = true
            · rw [if_pos hex]
              exact hinv
            · rw [if_neg hex]
              have hex' : object_exists st id = false := by
                rwa [Bool.not_eq_true] at hex
              cases h1 : alookup env.storage.content_sha1 id with
              | none => exact hinv
              | some sha1 =>
                  show dirContentOnce (revIds env.storage)
                    ((match alookup env.storage.content_data sha1 with
                      | none => (st, some CookErr.typeError)
                      | some data =>
                          (write_object env id (blobGitObject data) st,
                            none)).1)
                  cases h2 : alookup env.storage.content_data sha1 with
                  | none => exact hinv
                  | some data =>
                      exact inv_write_fresh env _ id _ st
                        (object_exists_false_not_mem st id hex') hinv
        | dir id =>
            simp only [runTask]
            by_cases hex : object_exists st id = true
            · rw [if_pos hex]
              exact hinv
            · rw [if_neg hex]
              have hex' : object_exists st id = false := by
                rwa [Bool.not_eq_true] at hex
              have hinv1 := inv_write_fresh env (revIds env.storage) id
                (env.directory_git_object id
                  ((alookup env.storage.directories id).getD [])) st
                (object_exists_false_not_mem st id hex') hinv
              exact ihL _ _
                (fun q hq => by
                  obtain ⟨e, _, hqe⟩ := List.mem_map.mp hq
                  rw [← hqe]
                  exact entryTask_good _ e)
                hinv1
        | revFetch id =>
            simp only [runTask]
            cases hlk : alookup env.storage.revisions id with
            | none => exact hinv
            | some rev =>
                have hmem := alookup_mem _ _ _ hlk
                have hidr : rev.id ∈ revIds env.storage := by
                  rw [hwf (id, rev) hmem]
                  exact List.mem_map.mpr ⟨(id, rev), hmem, rfl⟩
                have hinv1 := inv_write_rid env _ rev.id
                  (env.revision_git_object rev) st hidr hinv
                exact ihT (.dir rev.directory) _ trivial hinv1
        | revSubgraph id =>
            simp only [runTask]
            have hgoodfall : ∀ q ∈ (dfsWalk env.storage fuel [id] []).flatMap
                (fun r => [LoadTask.revNode r, LoadTask.dir r.directory]),
                goodTask (revIds env.storage) q := by
              intro q hq
              obtain ⟨r, hr, hq2⟩ := List.mem_flatMap.mp hq
              rcases List.mem_cons.mp hq2 with hq2 | hq2
              · subst hq2
                obtain ⟨k, hk⟩ := dfsWalk_mem env.storage fuel [id] [] r hr
                show r.id ∈ revIds env.storage
                rw [hwf (k, r) hk]
                exact List.mem_map.mpr ⟨(k, r), hk, rfl⟩
              · rcases List.mem_cons.mp hq2 with hq2 | hq2
                · subst hq2
                  trivial
                · cases hq2
            cases hg : env.graph with
            | none =>
                exact ihL _ _ hgoodfall hinv
            | some g =>
                show dirContentOnce (revIds env.storage)
                  ((match g id with
                    | Except.ok ids =>
                        runTaskList env fuel (ids.map LoadTask.revFetch) st
                    | Except.error _ =>
                        runTaskList env fuel
                          ((dfsWalk env.storage fuel [id] []).flatMap
                            (fun r => [LoadTask.revNode r,
                              LoadTask.dir r.directory])) st).1)
                cases hgid : g id with
                | ok ids =>
                    refine ihL _ _ (fun q hq => ?_) hinv
                    obtain ⟨i, _, hqe⟩ := List.mem_map.mp hq
                    rw [← hqe]
                    trivial
                | error e =>
                    exact ihL _ _ hgoodfall hinv
      · intro l st hgood hinv
        cases l with
        | nil => exact hinv
        | cons t rest =>
            simp only [runTaskList]
            rcases hrt : runTask env fuel t st with ⟨st', e⟩
            have hinv' : dirContentOnce (revIds env.storage) st' := by
              have h := ihT t st (hgood t (List.mem_cons_self _ _)) hinv
              rw [hrt] at h
              exact h
            cases e with
            | none =>
                exact ihL rest st'
                  (fun q hq => hgood q (List.mem_cons_of_mem _ hq)) hinv'
            | some err => exact hinv'

/-- C5 (amended): during one git-bare subgraph load, (1) a directory or
content id whose object file already exists is skipped by its loader,
(2) every write stores the zlib level-1 compression of the object's
canonical git serialization at `objects/<hex[0:2]>/<hex[2:]>`, and
(3) consequently every directory or content object file is written at
most once per run — while revision objects are written unconditionally
on each visit and may be rewritten (see the counterexample). -/
theorem gitbare_write_discipline (env : GitBareEnv)
    (hwf : ∀ p ∈ env.storage.revisions, p.2.id = p.1) :
    (∀ (fuel : Nat) (id : List Nat) (st : CookerState),
       object_exists st id = true →
       runTask env (fuel + 1) (.dir id) st = (st, none) ∧
       runTask env (fuel + 1) (.file id) st = (st, none)) ∧
    (∀ (id obj : List Nat) (st : CookerState),
       (write_object env id obj st).writes =
         st.writes ++ [(id, _obj_path id, env.zlib1 obj)]) ∧
    (∀ (fuel : Nat) (obj_type : String) (obj_id id : List Nat),
       id ∉ revIds env.storage →
       writeCount id
         (load_subgraph env fuel obj_type obj_id initCookerState).1 ≤ 1) := by
  refine ⟨?_, fun id obj st => rfl, ?_⟩
  · intro fuel id st hex
    constructor
    · simp [runTask, hex]
    · simp [runTask, hex]
  · intro fuel obj_type obj_id id hid
    have haux := gitbare_once_aux env hwf fuel
    by_cases h1 : obj_type = "revision"
    · simp only [load_subgraph, if_pos h1]
      exact ((haux.1 (.revSubgraph obj_id) initCookerState trivial
        (dirContentOnce_init _)) id hid).1
    · by_cases h2 : obj_type = "directory"
      · simp only [load_subgraph, if_neg h1, if_pos h2]
        exact ((haux.1 (.dir obj_id) initCookerState trivial
          (dirContentOnce_init _)) id hid).1
      · simp only [load_subgraph, if_neg h1, if_neg h2]
        simp [writeCount, initCookerState]

/-- Witness for the amended C5 on the concrete counterexample storage:
the non-revision ids are written at most once even in the run that
rewrites the revision, and an existing directory file is skipped. -/
theorem gitbare_write_discipline_witness :
    (∀ p ∈ cexStorage.revisions, p.2.id = p.1) ∧
    cexD1 ∉ revIds cexStorage ∧
    writeCount cexD1
      (load_subgraph cexEnv 30 "directory" cexRoot initCookerState).1 ≤ 1 ∧
    runTask cexEnv 5 (.dir cexD3) ⟨[cexD3], []⟩ = (⟨[cexD3], []⟩, none) :=
  ⟨by decide, by decide,
   (gitbare_write_discipline cexEnv (by decide)).2.2 30 "directory" cexRoot
     cexD1 (by decide),
   ((gitbare_write_discipline cexEnv (by decide)).1 4 cexD3
     ⟨[cexD3], []⟩ (by decide)).1⟩

